import Mathlib

/-!
# Verification of the SPLP-ANRI Dynamic Schema & Aggregation Engine

Shallow embedding of the core services of the repository:

* `TableService` (`app/services/table_service.py`): name sanitizer,
  schema registry lifecycle, upsert-with-merge engine;
* `GenericSummaryService` (`app/services/generic_summary_service.py`):
  full summary rebuild and incremental cell recompute;
* the cache layer (`app/services/cache_service.py`): in-memory backend,
  Redis backend, `CacheService` key generation and prefix invalidation,
  and the `cached` decorator.

Python dictionaries carrying row data are embedded as association lists,
machine integers as `Int` (Python integers are unbounded), SQL NULL as
`Option`, and `datetime.now()` instants as `Nat` ticks passed explicitly.
-/

/-! ## Python primitives used by the services -/

/-- A scalar value as it appears in the services' row dictionaries:
a Python `int` or `str`.  SQL NULL / Python `None` is `Option.none` at
the use sites. -/
inductive Value where
  | vint (i : Int)
  | vstr (s : String)
deriving DecidableEq, Repr

/-- Digit run accumulator for `parsePyInt`. -/
def digitsVal : List Char → Option Nat
  | [] => none
  | cs => go cs 0
where
  go : List Char → Nat → Option Nat
    | [], acc => some acc
    | c :: rest, acc =>
        if c.isDigit then go rest (acc * 10 + (c.toNat - '0'.toNat)) else none

/-- Python `int(s)` on a string: strips surrounding whitespace, accepts an
optional sign followed by at least one decimal digit, raises (here: `none`)
otherwise.  (Python additionally accepts digit-group underscores; the
theorems below never feed such strings.) -/
def parsePyInt (s : String) : Option Int :=
  match (s.trim).data with
  | '+' :: rest => (digitsVal rest).map (Int.ofNat ·)
  | '-' :: rest => (digitsVal rest).map (fun n => -(Int.ofNat n))
  | rest => (digitsVal rest).map (Int.ofNat ·)

/-- Python `int(v)` on a row value: identity on ints, string parse on
strings; `none` models the `ValueError` / `TypeError` the callers catch. -/
def pyInt : Value → Option Int
  | .vint i => some i
  | .vstr s => parsePyInt s

/-- Python truthiness of a row value (`0` and `""` are falsy). -/
def pyFalsy : Value → Bool
  | .vint i => i == 0
  | .vstr s => s == ""

/-- Python `x or 0` on an optional row value as used for
`existing.get(safe_col) or 0` in `upsert_data`. -/
def pyOrZero : Option Value → Value
  | none => .vint 0
  | some v => if pyFalsy v then .vint 0 else v

/-! ## Name sanitizer (`TableService._sanitize_name`)

`"".join(c for c in name if c.isalnum() or c == '_').lower()`.

Python's `str.isalnum` and `str.lower` are Unicode-aware.  The embedding
below is exact for every code point below U+0100 (ASCII plus the Latin-1
supplement); code points at U+0100 and above are conservatively mapped to
non-alphanumeric and left unchanged by lowering, and no theorem below
evaluates the sanitizer on such a code point. -/

/-- Latin-1 code points (below U+0100) for which Python `str.isalnum` is
`True`: ASCII letters and digits, the ordinal indicators ª (U+00AA) and
º (U+00BA), superscripts ² ³ ¹ (U+00B2, U+00B3, U+00B9), micro µ (U+00B5),
vulgar fractions ¼ ½ ¾ (U+00BC–U+00BE), and the Latin-1 letters
U+00C0–U+00FF except × (U+00D7) and ÷ (U+00F7). -/
def pyIsAlnum (c : Char) : Bool :=
  let n := c.toNat
  (('a' ≤ c && c ≤ 'z') || ('A' ≤ c && c ≤ 'Z') || ('0' ≤ c && c ≤ '9')) ||
  (n == 0xAA || n == 0xB2 || n == 0xB3 || n == 0xB5 || n == 0xB9 ||
   n == 0xBA || n == 0xBC || n == 0xBD || n == 0xBE) ||
  (0xC0 ≤ n && n ≤ 0xFF && n ≠ 0xD7 && n ≠ 0xF7)

/-- Python `str.lower`, per character, exact below U+0100: ASCII `A`–`Z`
and Latin-1 `À`–`Þ` (except ×) shift by 0x20, everything else is fixed.
(Python lowers a string character-wise on this range.) -/
def pyLower (c : Char) : Char :=
  let n := c.toNat
  if ('A' ≤ c && c ≤ 'Z') || (0xC0 ≤ n && n ≤ 0xDE && n ≠ 0xD7) then
    Char.ofNat (n + 0x20)
  else c

/-- `TableService._sanitize_name`: keep the alphanumeric-or-underscore
characters, then lowercase the result. -/
def sanitizeName (s : List Char) : List Char :=
  (s.filter (fun c => pyIsAlnum c || c == '_')).map pyLower

/-- The character class of the spec's pattern `^[a-z0-9_]*$`. -/
def isLowerAlnumU (c : Char) : Bool :=
  ('a' ≤ c && c ≤ 'z') || ('0' ≤ c && c ≤ '9') || c == '_'

/-- A string matches `^[a-z0-9_]*$` iff every character is in the class. -/
def matchesLowerPat (s : List Char) : Bool :=
  s.all isLowerAlnumU

/-- ASCII string predicate. -/
def allAscii (s : List Char) : Bool :=
  s.all (fun c => c.toNat < 128)

/-! ## Claim C6 — sanitizer output pattern -/

/-- Helper for the amended C6 theorem: on the 128 ASCII code points,
a character kept by the sanitizer's filter is mapped by `pyLower` into
the class `[a-z0-9_]`. -/
theorem sanitize_ascii_step : ∀ i : Fin 128,
    (pyIsAlnum (Char.ofNat i.val) || Char.ofNat i.val == '_') = true →
    isLowerAlnumU (pyLower (Char.ofNat i.val)) = true := by decide

/-- C6 counterexample: the claim quantifies over all input strings, but
Python's `str.isalnum` is Unicode-aware, so `_sanitize_name` keeps the
Latin-1 letter é (U+00E9), which `lower` leaves unchanged; the output
"é" does not match `^[a-z0-9_]*$`. -/
theorem sanitize_pattern_cex :
    sanitizeName ['é'] = ['é'] ∧
    matchesLowerPat (sanitizeName ['é']) = false := by
  constructor <;> decide

/-- C6 (amended): for every ASCII input string, `_sanitize_name` returns
a string matching `^[a-z0-9_]*$` — every non-alphanumeric, non-underscore
character is stripped and the remainder is lowercased into `[a-z0-9_]`. -/
theorem sanitize_ascii_matches_pattern (s : List Char)
    (h : allAscii s = true) :
    matchesLowerPat (sanitizeName s) = true := by
  unfold matchesLowerPat sanitizeName
  rw [List.all_eq_true]
  intro c hc
  rcases List.mem_map.mp hc with ⟨c', hc', rfl⟩
  have hkeep := List.of_mem_filter hc'
  have hascii : c'.toNat < 128 := by
    have := (List.all_eq_true.mp h) c' (List.mem_of_mem_filter hc')
    simpa using this
  have := sanitize_ascii_step ⟨c'.toNat, hascii⟩
  rw [Char.ofNat_toNat] at this
  exact this hkeep

/-- C6 witness: the amended theorem applied to the concrete ASCII input
"Hello_World-123!". -/
theorem sanitize_ascii_matches_pattern_witness :
    matchesLowerPat (sanitizeName "Hello_World-123!".data) = true :=
  sanitize_ascii_matches_pattern "Hello_World-123!".data (by decide)

/-! ## In-memory cache backend (`InMemoryCacheBackend`)

The backend is a Python dict `key ↦ (value, expires_at)` guarded by a
re-entrant lock; with the lock held every operation is sequential, so the
dict is embedded as an insertion-ordered association list with unique
keys, and each operation takes the current `datetime.now()` instant as an
explicit `now : Nat` tick. -/

/-- An entry of the in-memory cache: key, value, `expires_at` tick. -/
abbrev MemEntry (α : Type) := String × α × Nat

/-- The in-memory cache dict, in insertion order. -/
abbrev MemCache (α : Type) := List (MemEntry α)

/-- Python `del self._cache[key]` (keys are unique in a dict, so removing
every entry with the key is the same operation). -/
def memErase (st : MemCache α) (key : String) : MemCache α :=
  st.filter (fun e => !(e.1 == key))

/-- Python `str.rstrip("*")`: drop every trailing asterisk. -/
def rstripStar (s : String) : String :=
  ⟨(s.data.reverse.dropWhile (· == '*')).reverse⟩

/-- Python `str.startswith`. -/
def pyStartsWith (s pre : String) : Bool :=
  pre.data.isPrefixOf s.data

/-- `InMemoryCacheBackend.get`: a hit returns the value; an entry whose
`expires_at` lies strictly before `now` is deleted and reported as a miss.
Returns the result together with the possibly shrunk dict. -/
def memGet (now : Nat) (st : MemCache α) (key : String) :
    Option α × MemCache α :=
  match st.find? (fun e => e.1 == key) with
  | none => (none, st)
  | some (_, v, exp) =>
      if exp < now then (none, memErase st key) else (some v, st)

/-- `InMemoryCacheBackend.set`: when the dict has reached `maxSize`
entries, first sweep out the expired entries; if the dict is still at
capacity, delete the oldest `maxSize / 10` keys; finally store the entry
with expiry `now + ttl` (updating in place when the key is present, as a
Python dict does). -/
def memSet (maxSize now : Nat) (st : MemCache α) (key : String) (v : α)
    (ttl : Nat) : MemCache α :=
  let st1 :=
    if maxSize ≤ st.length then
      let live := st.filter (fun e => !(decide (e.2.2 < now)))
      if maxSize ≤ live.length then
        ((live.map (·.1)).take (maxSize / 10)).foldl memErase live
      else live
    else st
  if st1.any (fun e => e.1 == key) then
    st1.map (fun e => if e.1 == key then (key, v, now + ttl) else e)
  else st1 ++ [(key, v, now + ttl)]

/-- `InMemoryCacheBackend.delete`: report whether the key was present and
remove it. -/
def memDelete (st : MemCache α) (key : String) : Bool × MemCache α :=
  (st.any (fun e => e.1 == key), memErase st key)

/-- `InMemoryCacheBackend.clear`. -/
def memClear (_st : MemCache α) : MemCache α := []

/-- `InMemoryCacheBackend.keys`: all keys for the pattern `"*"`, otherwise
prefix matching against the pattern with its trailing asterisks stripped. -/
def memKeys (st : MemCache α) (pattern : String) : List String :=
  if pattern == "*" then st.map (·.1)
  else (st.map (·.1)).filter (fun k => pyStartsWith k (rstripStar pattern))

/-- `InMemoryCacheBackend.size`. -/
def memSize (st : MemCache α) : Nat := st.length

/-! ## `CacheService` over the in-memory backend -/

/-- `CacheService._generate_key`: the md5 hex digest of
`"{prefix}:{json.dumps(args)}:{json.dumps(kwargs)}"`.  The digest function
itself is a parameter `md5`; the relevant theorems assume only the true
property of `hashlib.md5(...).hexdigest()` that its output consists of
hexadecimal digit characters. -/
def generateKey (md5 : String → String) (p argsJson kwargsJson : String) :
    String :=
  md5 (p ++ ":" ++ argsJson ++ ":" ++ kwargsJson)

/-- Characters that can occur in an md5 hex digest. -/
def isHexDigitChar (c : Char) : Bool :=
  ('0' ≤ c && c ≤ '9') || ('a' ≤ c && c ≤ 'f')

/-- `CacheService.invalidate_prefix`: list the backend keys matching
`prefix ++ "*"` and delete each of them; returns the updated backend
(the deleted-key count is not needed by the theorems). -/
def svcInvalidatePref (st : MemCache α) (p : String) : MemCache α :=
  (memKeys st (p ++ "*")).foldl memErase st

/-- `CacheService.delete`, state part. -/
def svcDelete (st : MemCache α) (key : String) : MemCache α :=
  (memDelete st key).2

/-! ## Claim C10 — in-memory cache capacity bound -/

/-- An operation against the in-memory backend, carrying the
`datetime.now()` tick at which it runs. -/
inductive CacheOp (α : Type) where
  | get (key : String) (now : Nat)
  | set (key : String) (v : α) (ttl now : Nat)
  | del (key : String)
  | clear

/-- Dispatch one backend operation (state part). -/
def applyOp (maxSize : Nat) (st : MemCache α) : CacheOp α → MemCache α
  | .get key now => (memGet now st key).2
  | .set key v ttl now => memSet maxSize now st key v ttl
  | .del key => (memDelete st key).2
  | .clear => memClear st

/-- Run a sequence of backend operations from the empty cache the
constructor produces. -/
def runOps (maxSize : Nat) (ops : List (CacheOp α)) : MemCache α :=
  ops.foldl (applyOp maxSize) []

/-- Deleting a key never grows the dict. -/
theorem memErase_length_le (st : MemCache α) (key : String) :
    (memErase st key).length ≤ st.length :=
  List.length_filter_le _ _

/-- Folding deletions over a key list never grows the dict. -/
theorem foldl_memErase_length_le (ks : List String) (acc : MemCache α) :
    (ks.foldl memErase acc).length ≤ acc.length := by
  induction ks generalizing acc with
  | nil => simp
  | cons k ks ih =>
      simp only [List.foldl_cons]
      exact le_trans (ih _) (memErase_length_le _ _)

/-- The oldest-tenth eviction sweep of `memSet` leaves strictly fewer than
`maxSize` entries, provided `maxSize / 10 ≥ 1` (i.e. `maxSize ≥ 10`). -/
theorem evict_length_lt (maxSize : Nat) (live : MemCache α)
    (hms : 10 ≤ maxSize) (hge : maxSize ≤ live.length)
    (hle : live.length ≤ maxSize) :
    (((live.map (·.1)).take (maxSize / 10)).foldl memErase live).length
      < maxSize := by
  rcases live with _ | ⟨e, rest⟩
  · rw [List.length_nil] at hge; omega
  · obtain ⟨d, hdd⟩ : ∃ d, maxSize / 10 = d + 1 := by
      have : 1 ≤ maxSize / 10 := (Nat.le_div_iff_mul_le (by norm_num)).mpr (by omega)
      exact ⟨maxSize / 10 - 1, by omega⟩
    have h1 : (memErase (e :: rest) e.1).length ≤ rest.length := by
      have : memErase (e :: rest) e.1
          = rest.filter (fun x => !(x.1 == e.1)) := by
        simp [memErase, List.filter_cons]
      rw [this]
      exact List.length_filter_le _ _
    have hr : rest.length < maxSize := by
      simp only [List.length_cons] at hle; omega
    calc ((((e :: rest).map (·.1)).take (maxSize / 10)).foldl memErase
            (e :: rest)).length
        = (((rest.map (·.1)).take d).foldl memErase
            (memErase (e :: rest) e.1)).length := by
          rw [List.map_cons, hdd, List.take_succ_cons, List.foldl_cons]
      _ ≤ (memErase (e :: rest) e.1).length := foldl_memErase_length_le _ _
      _ ≤ rest.length := h1
      _ < maxSize := hr

/-- `memSet` preserves the capacity bound when `maxSize ≥ 10`. -/
theorem memSet_length_le (maxSize now : Nat) (st : MemCache α)
    (key : String) (v : α) (ttl : Nat) (hms : 10 ≤ maxSize)
    (hst : st.length ≤ maxSize) :
    (memSet maxSize now st key v ttl).length ≤ maxSize := by
  unfold memSet
  have hst1 : ∀ st1 : MemCache α, st1.length < maxSize →
      (if st1.any (fun e => e.1 == key) then
        st1.map (fun e => if e.1 == key then (key, v, now + ttl) else e)
      else st1 ++ [(key, v, now + ttl)]).length ≤ maxSize := by
    intro st1 h
    split
    · simpa using Nat.le_of_lt h
    · simpa using h
  apply hst1
  dsimp only
  split
  · split
    · rename_i h2
      exact evict_length_lt maxSize _ hms h2
        (le_trans (List.length_filter_le _ _) hst)
    · rename_i h2
      omega
  · rename_i h
    omega

/-- Every backend operation preserves the capacity bound when
`maxSize ≥ 10`. -/
theorem applyOp_length_le (maxSize : Nat) (st : MemCache α)
    (op : CacheOp α) (hms : 10 ≤ maxSize) (hst : st.length ≤ maxSize) :
    (applyOp maxSize st op).length ≤ maxSize := by
  cases op with
  | get key now =>
      show ((memGet now st key).2).length ≤ maxSize
      unfold memGet
      split
      · exact hst
      · split
        · exact le_trans (memErase_length_le _ _) hst
        · exact hst
  | set key v ttl now => exact memSet_length_le _ _ _ _ _ _ hms hst
  | del key => exact le_trans (memErase_length_le _ _) hst
  | clear => exact Nat.zero_le _

/-- C10 counterexample: the claim fails for a backend configured with
`max_size = 1` (any `max_size < 10`): `max_size // 10 = 0`, so the
oldest-tenth eviction removes nothing and the dict grows to 2 entries. -/
theorem inmemory_cache_size_cex :
    memSize (runOps 1 [CacheOp.set "a" (0 : Int) 300 0,
      CacheOp.set "b" (0 : Int) 300 0]) = 2 := by decide

/-- C10 (amended): for a backend whose configured `max_size` is at least
10 (the production configuration uses 5000), after every sequence of
get/set/delete/clear operations starting from the empty cache the number
of stored entries is at most `max_size`: `set` evicts expired entries at
capacity and, if still at capacity, removes the oldest tenth before
inserting. -/
theorem inmemory_cache_size_bounded (maxSize : Nat) (hms : 10 ≤ maxSize)
    (ops : List (CacheOp α)) :
    memSize (runOps maxSize ops) ≤ maxSize := by
  suffices h : ∀ st : MemCache α, st.length ≤ maxSize →
      (ops.foldl (applyOp maxSize) st).length ≤ maxSize by
    exact h [] (by simpa using Nat.zero_le _)
  induction ops with
  | nil => intro st hst; simpa using hst
  | cons op ops ih =>
      intro st hst
      exact ih _ (applyOp_length_le _ _ _ hms hst)

/-- C10 witness: the amended bound at `max_size = 10` on a concrete
operation sequence. -/
theorem inmemory_cache_size_bounded_witness :
    memSize (runOps 10 [CacheOp.set "a" (0 : Int) 300 0,
      CacheOp.set "b" (1 : Int) 300 0]) ≤ 10 :=
  inmemory_cache_size_bounded 10 (by decide) _

/-! ## Claim C1 — upsert invalidation versus the cached statistics key

`get_statistics` is wrapped by `@cached(prefix="stats_table", ttl=300)`,
which stores its result under `_generate_key("stats_table", table_id)` —
the md5 hex digest of `"stats_table:[<table_id>]:{}"`.  After a write,
`upsert_data` runs `cache.invalidate_prefix("stats_table")`,
`cache.delete("total_count_<id>")` and `cache.delete("dashboard_stats")`.
The scenario below replays this sequence for `table_id = 1` on the
in-memory backend starting from an empty cache, with both reads at tick
`now = 0` (well inside the 300-second TTL). -/

/-- The string `_generate_key` hashes for `get_statistics(table_id=1)`:
`"stats_table:[1]:{}"` (`json.dumps((1,)) = "[1]"`, no kwargs). -/
def statsCallKeyData : String := "stats_table" ++ ":" ++ "[1]" ++ ":" ++ "{}"

/-- Cache state after the first `get_statistics(1)` call: the wrapper
misses on the empty cache, computes the statistics payload `v0` and
stores it under the md5 key with TTL 300. -/
def c1AfterFirstRead (md5 : String → String) (v0 : α) : MemCache α :=
  memSet 5000 0 [] (md5 statsCallKeyData) v0 300

/-- Cache state after a successful `upsert_data(1, ...)`: the upsert
invalidates the `stats_table` prefix and deletes the `total_count_1` and
`dashboard_stats` keys. -/
def c1AfterUpsert (md5 : String → String) (v0 : α) : MemCache α :=
  svcDelete (svcDelete
    (svcInvalidatePref (c1AfterFirstRead md5 v0) "stats_table")
    "total_count_1") "dashboard_stats"

/-- Result of the second `get_statistics(1)` call: the wrapper's cache
lookup under the same md5 key. -/
def c1SecondRead (md5 : String → String) (v0 : α) : Option α :=
  (memGet 0 (c1AfterUpsert md5 v0) (md5 statsCallKeyData)).1

/-- C1 exhibit: for every digest function whose output consists of hex
digit characters (true of `hashlib.md5(...).hexdigest()`), the statistics
read after the upsert still returns the pre-write cached value, and the
upsert's three invalidation calls leave the cache state completely
unchanged: the md5-hashed key does not start with the literal prefix
`"stats_table"` (its characters are hex digits), so
`invalidate_prefix("stats_table")` matches nothing. -/
theorem upsert_stale_statistics_read (md5 : String → String)
    (hhex : ∀ c ∈ (md5 statsCallKeyData).data, isHexDigitChar c = true)
    (v0 : α) :
    c1SecondRead md5 v0 = some v0 ∧
    c1AfterUpsert md5 v0 = c1AfterFirstRead md5 v0 := by
  set k := md5 statsCallKeyData with hk
  have h1 : c1AfterFirstRead md5 v0 = [(k, v0, 300)] := by
    simp [c1AfterFirstRead, memSet]
  have hpre : pyStartsWith k "stats_table" = false := by
    unfold pyStartsWith
    cases hc : k.data with
    | nil => rfl
    | cons c cs =>
        show ("stats_table".data.isPrefixOf (c :: cs)) = false
        have hmem : c ∈ k.data := by rw [hc]; exact List.mem_cons_self _ _
        have := hhex c hmem
        by_cases hsc : c = 's'
        · subst hsc; exact absurd this (by decide)
        · simp [List.isPrefixOf]
          intro hEq
          exact absurd hEq.symm hsc
  have hne1 : (k == "total_count_1") = false := by
    apply beq_eq_false_iff_ne.mpr
    intro hEq
    have : ('t' : Char) ∈ k.data := by rw [hEq]; decide
    exact absurd (hhex 't' this) (by decide)
  have hne2 : (k == "dashboard_stats") = false := by
    apply beq_eq_false_iff_ne.mpr
    intro hEq
    have : ('h' : Char) ∈ k.data := by rw [hEq]; decide
    exact absurd (hhex 'h' this) (by decide)
  have h2 : c1AfterUpsert md5 v0 = [(k, v0, 300)] := by
    unfold c1AfterUpsert
    rw [h1]
    have hrs : rstripStar "stats_table*" = "stats_table" := by decide
    have hkeys : memKeys ([(k, v0, 300)] : MemCache α)
        ("stats_table" ++ "*") = [] := by
      have hp : ("stats_table" ++ "*" : String) = "stats_table*" := by decide
      simp [memKeys, hp, hrs, hpre]
    unfold svcInvalidatePref
    rw [hkeys]
    simp only [List.foldl_nil]
    simp [svcDelete, memDelete, memErase, hne1, hne2]
  refine ⟨?_, by rw [h2, h1]⟩
  unfold c1SecondRead
  rw [h2]
  simp [memGet]

/-- C1 exhibit witness: a concrete hex digest value for the key. -/
theorem upsert_stale_statistics_read_witness :
    c1SecondRead (fun _ => "0123456789abcdef0123456789abcdef") (7 : Int)
      = some 7 :=
  (upsert_stale_statistics_read
    (fun _ => "0123456789abcdef0123456789abcdef") (by decide) 7).1

/-! ## Redis cache backend (`RedisCacheBackend`)

The Redis client is embedded as a store of serialized entries together
with a `broken` flag: when `broken` is set, every transport call raises
(`Except.error`), which models connection loss, timeouts or any other
client exception.  Serialization (`json.dumps` / `json.loads`) is kept
abstract as a `dumps` / `loads` function pair.  The backend methods wrap
every transport call in `try/except`, so they are total functions. -/

/-- State of the Redis server plus the transport health flag.  Entries
are key ↦ (ttl, serialized value). -/
structure RedisState where
  entries : List (String × Nat × String)
  broken : Bool
deriving Repr

/-- Transport call `client.get`. -/
def rGet (st : RedisState) (key : String) : Except Unit (Option String) :=
  if st.broken then .error () else
    .ok ((st.entries.find? (fun e => e.1 == key)).map (fun e => e.2.2))

/-- Transport call `client.setex` (overwrites an existing key). -/
def rSetex (st : RedisState) (key : String) (ttl : Nat) (v : String) :
    Except Unit RedisState :=
  if st.broken then .error () else
    .ok { st with entries :=
      (st.entries.filter (fun e => !(e.1 == key))) ++ [(key, ttl, v)] }

/-- Transport call `client.delete(*keys)`: returns the number of keys
removed. -/
def rDel (st : RedisState) (keys : List String) :
    Except Unit (Nat × RedisState) :=
  if st.broken then .error () else
    .ok ((st.entries.filter (fun e => keys.contains e.1)).length,
      { st with entries :=
        st.entries.filter (fun e => !(keys.contains e.1)) })

/-- Transport call `client.keys(pattern)` for the glob patterns the
backend issues (a literal prefix followed by `*`). -/
def rKeys (st : RedisState) (pattern : String) :
    Except Unit (List String) :=
  if st.broken then .error () else
    .ok ((st.entries.map (·.1)).filter
      (fun k => pyStartsWith k (rstripStar pattern)))

/-- The namespace prefix `RedisCacheBackend._key` prepends. -/
def redisKey (key : String) : String := "splp:" ++ key

/-- `RedisCacheBackend.get`: on transport error or empty payload return a
miss, otherwise deserialize (a deserialization failure is also caught and
returned as a miss). -/
def redisBGet (loads : String → Option α) (st : RedisState)
    (key : String) : Option α :=
  match rGet st (redisKey key) with
  | .error _ => none
  | .ok none => none
  | .ok (some d) => if d == "" then none else loads d

/-- `RedisCacheBackend.set`: serialize and `setex`; on transport error do
nothing. -/
def redisBSet (dumps : α → String) (st : RedisState) (key : String)
    (v : α) (ttl : Nat) : RedisState :=
  match rSetex st (redisKey key) ttl (dumps v) with
  | .error _ => st
  | .ok st2 => st2

/-- `RedisCacheBackend.delete`: report whether a key was removed; on
transport error report `false` and leave the store unchanged. -/
def redisBDelete (st : RedisState) (key : String) : Bool × RedisState :=
  match rDel st [redisKey key] with
  | .error _ => (false, st)
  | .ok (n, st2) => (decide (0 < n), st2)

/-- `RedisCacheBackend.clear`: list the namespaced keys and delete them;
on transport error anywhere, do nothing. -/
def redisBClear (st : RedisState) : RedisState :=
  match rKeys st (redisKey "*") with
  | .error _ => st
  | .ok ks =>
      if ks == [] then st
      else
        match rDel st ks with
        | .error _ => st
        | .ok (_, st2) => st2

/-- `RedisCacheBackend.keys`: list matching keys with the namespace
prefix stripped again; on transport error return the empty list. -/
def redisBKeys (st : RedisState) (pattern : String) : List String :=
  match rKeys st (redisKey pattern) with
  | .error _ => []
  | .ok ks => ks.map (fun k => k.replace "splp:" "")

/-- `RedisCacheBackend.size`: the number of namespaced keys; on transport
error report 0. -/
def redisBSize (st : RedisState) : Nat :=
  match rKeys st (redisKey "*") with
  | .error _ => 0
  | .ok ks => ks.length

/-! ## Claim C8 — Redis backend degrades to no-ops on transport failure -/

/-- C8: when the transport fails, every Redis backend operation swallows
the exception: `get` returns a miss, `set` and `clear` leave the store
untouched, `delete` reports `false`, `keys` returns the empty list and
`size` reports 0 — no operation ever raises to its caller (all are total
functions by construction of the `try/except` translation). -/
theorem redis_backend_failure_noop (loads : String → Option α)
    (dumps : α → String) (st : RedisState) (key pattern : String) (v : α)
    (ttl : Nat) (hb : st.broken = true) :
    redisBGet loads st key = none ∧
    redisBSet dumps st key v ttl = st ∧
    redisBDelete st key = (false, st) ∧
    redisBClear st = st ∧
    redisBKeys st pattern = [] ∧
    redisBSize st = 0 := by
  refine ⟨?_, ?_, ?_, ?_, ?_, ?_⟩ <;>
    simp [redisBGet, redisBSet, redisBDelete, redisBClear, redisBKeys,
      redisBSize, rGet, rSetex, rDel, rKeys, hb]

/-- C8 witness: the no-op behaviour at a concrete broken transport state
holding one entry. -/
theorem redis_backend_failure_noop_witness :
    redisBGet (fun _ => (none : Option Int)) ⟨[("splp:a", 300, "1")], true⟩
      "a" = none ∧
    redisBSet (fun _ : Int => "x") ⟨[("splp:a", 300, "1")], true⟩ "a" 2 60
      = ⟨[("splp:a", 300, "1")], true⟩ ∧
    redisBDelete ⟨[("splp:a", 300, "1")], true⟩ "a"
      = (false, ⟨[("splp:a", 300, "1")], true⟩) ∧
    redisBClear ⟨[("splp:a", 300, "1")], true⟩
      = ⟨[("splp:a", 300, "1")], true⟩ ∧
    redisBKeys ⟨[("splp:a", 300, "1")], true⟩ "*" = [] ∧
    redisBSize ⟨[("splp:a", 300, "1")], true⟩ = 0 :=
  redis_backend_failure_noop (fun _ => (none : Option Int))
    (fun _ : Int => "x") ⟨[("splp:a", 300, "1")], true⟩ "a" "*" 2 60 rfl

/-! ## Table service data model (`TableService`)

A `ColumnDefinition` carries the fields `upsert_data` consults; a
physical row stores NULL-able cell values keyed by the sanitized column
name, plus the derived `total`.  A calendar date is year/month/day. -/

/-- Calendar date (the `tanggal` column). -/
structure Date where
  year : Nat
  month : Nat
  day : Nat
deriving DecidableEq, Repr

/-- The column metadata consulted by the upsert engine. -/
structure ColumnDef where
  name : String
  data_type : String
  is_summable : Bool
deriving DecidableEq, Repr

/-- Stored or incoming cell values: column name ↦ value, where `none`
is SQL NULL / Python `None`. -/
abbrev Cells := List (String × Option Value)

/-- String form of `_sanitize_name`. -/
def sanitizeStr (s : String) : String := ⟨sanitizeName s.data⟩

/-- Python `d.get(k)` on a dict embedded as `Cells`: `None` both when the
key is absent and when it maps to an explicit `None`. -/
def dataGet (d : Cells) (k : String) : Option Value :=
  match d.find? (fun e => e.1 == k) with
  | some e => e.2
  | none => none

/-- Python `d[k]`-presence probe `k in d`, keeping the stored value. -/
def dictGet (d : Cells) (k : String) : Option (Option Value) :=
  (d.find? (fun e => e.1 == k)).map (·.2)

/-- Python `d.get(k, 0)`: the integer 0 when the key is absent. -/
def dataGetD0 (d : Cells) (k : String) : Option Value :=
  match dictGet d k with
  | some v => v
  | none => some (.vint 0)

/-- The update branch of `upsert_data` treats a column additively exactly
when `col.is_summable and col.data_type == 'integer'`. -/
def summableInt (col : ColumnDef) : Bool :=
  col.is_summable && (col.data_type == "integer")

/-- Merged value of a summable integer column in the update branch:
`int(existing.get(safe_col) or 0) + int(data.get(col.name, 0))`, where a
failing `int(new_val)` falls back to `int(old_val)` alone and a failing
`int(old_val)` propagates (`none`) and aborts the whole upsert. -/
def mergedInt (col : ColumnDef) (existing data : Cells) : Option Int :=
  let old := pyOrZero (dataGet existing (sanitizeStr col.name))
  let newv := dataGetD0 data col.name
  (pyInt old).map (fun o => o + ((newv.bind pyInt).getD 0))

/-- The update (merge) branch of `upsert_data`: walk the schema columns
building the new cell values and accumulating `new_total` over the
summable integer columns; `none` models the exception path (caught by the
caller, which rolls back). -/
def updateBranch (cols : List ColumnDef) (existing data : Cells) :
    Option (Cells × Int) :=
  match cols with
  | [] => some ([], 0)
  | col :: rest =>
      if summableInt col then
        match mergedInt col existing data with
        | none => none
        | some fv =>
            (updateBranch rest existing data).map
              (fun p => ((sanitizeStr col.name, some (.vint fv)) :: p.1,
                fv + p.2))
      else
        (updateBranch rest existing data).map
          (fun p => ((sanitizeStr col.name, dataGet data col.name) :: p.1,
            p.2))

/-- The insert branch of `upsert_data`: a column present in the incoming
dict is stored as sent and, when summable (of any declared type), its
parseable integer value is added to `total`; a column absent from the
dict is left to the DDL default of `create_table` (`INTEGER DEFAULT 0`
for integer columns, NULL for TEXT columns). -/
def insertBranch (cols : List ColumnDef) (data : Cells) : Cells × Int :=
  match cols with
  | [] => ([], 0)
  | col :: rest =>
      let p := insertBranch rest data
      match dictGet data col.name with
      | some v =>
          ((sanitizeStr col.name, v) :: p.1,
            (if col.is_summable then (v.bind pyInt).getD 0 else 0) + p.2)
      | none =>
          ((sanitizeStr col.name,
            if col.data_type == "integer" then some (.vint 0) else none)
              :: p.1, p.2)

/-- A row of a physical table. -/
structure DataRow where
  unit : Int
  tanggal : Date
  cells : Cells
  total : Int
deriving DecidableEq, Repr

/-- Outcome of `upsert_data`. -/
inductive UpsertResult where
  | errorRes
  | updated
  | inserted
deriving DecidableEq, Repr

/-- The `UPDATE ... WHERE id = :id` targets the row the
`SELECT ... .first()` found: the first row matching the key. -/
def updateFirstMatch (tbl : List DataRow) (uid : Int) (tgl : Date)
    (cs : Cells) (t : Int) : List DataRow :=
  match tbl with
  | [] => []
  | r :: rest =>
      if r.unit == uid && r.tanggal == tgl then
        { r with cells := cs, total := t } :: rest
      else r :: updateFirstMatch rest uid tgl cs t

/-- `TableService.upsert_data` on a physical table embedded as a row
list: select the existing row keyed by `(unit_kerja_id, tanggal)`; merge
into it when found, otherwise insert a new row. -/
def upsertData (cols : List ColumnDef) (uid : Int) (tgl : Date)
    (data : Cells) (tbl : List DataRow) : UpsertResult × List DataRow :=
  match tbl.find? (fun r => r.unit == uid && r.tanggal == tgl) with
  | some row =>
      match updateBranch cols row.cells data with
      | none => (.errorRes, tbl)
      | some (cs, t) => (.updated, updateFirstMatch tbl uid tgl cs t)
  | none =>
      let p := insertBranch cols data
      (.inserted, tbl ++ [⟨uid, tgl, p.1, p.2⟩])

/-! ## Claims C2, C3 — upsert merge semantics -/

/-- The claim's per-column arithmetic for a summable integer column in
the update branch: the existing stored value (NULL treated as 0) plus the
incoming value, where a missing or unparseable incoming value contributes
0. -/
def updInt (col : ColumnDef) (existing data : Cells) : Int :=
  (pyInt (pyOrZero (dataGet existing (sanitizeStr col.name)))).getD 0 +
  ((dataGetD0 data col.name).bind pyInt).getD 0

/-- The claim's per-column new stored value in the update branch: the
merged sum for summable integer columns, and the raw incoming value
(`data.get(name)`, hence NULL when absent) for every other column. -/
def updCell (col : ColumnDef) (existing data : Cells) : Option Value :=
  if summableInt col then some (.vint (updInt col existing data))
  else dataGet data col.name

/-- Characterization of the update branch: on success the new cells are
exactly `updCell` per schema column (in schema order) and the recomputed
total is the sum of the merged values of the summable integer columns. -/
theorem updateBranch_eq (cols : List ColumnDef) (existing data : Cells)
    (cs : Cells) (t : Int)
    (h : updateBranch cols existing data = some (cs, t)) :
    cs = cols.map (fun col => (sanitizeStr col.name, updCell col existing data)) ∧
    t = ((cols.filter (fun c => summableInt c)).map
          (fun c => updInt c existing data)).sum := by
  induction cols generalizing cs t with
  | nil =>
      simp only [updateBranch, Option.some.injEq, Prod.mk.injEq] at h
      simp [← h.1, ← h.2]
  | cons col rest ih =>
      by_cases hs : summableInt col = true
      · simp only [updateBranch, hs, if_true] at h
        cases hm : mergedInt col existing data with
        | none => rw [hm] at h; simp at h
        | some fv =>
            rw [hm] at h
            rw [Option.map_eq_some'] at h
            obtain ⟨⟨cs', t'⟩, hub, hEq⟩ := h
            obtain ⟨h1, h2⟩ := ih cs' t' hub
            injection hEq with hcs ht
            subst hcs; subst ht
            have hfv : fv = updInt col existing data := by
              simp only [mergedInt] at hm
              rw [Option.map_eq_some'] at hm
              obtain ⟨o, hpo, hfo⟩ := hm
              unfold updInt
              rw [hpo]
              simp [← hfo]
            refine ⟨?_, ?_⟩
            · simp only [List.map_cons]
              rw [h1, hfv]
              simp [updCell, hs]
            · rw [List.filter_cons_of_pos hs, List.map_cons, List.sum_cons,
                hfv]
              simp only []
              rw [h2]
      · simp only [updateBranch, hs, Bool.false_eq_true, if_false] at h
        rw [Option.map_eq_some'] at h
        obtain ⟨⟨cs', t'⟩, hub, hEq⟩ := h
        obtain ⟨h1, h2⟩ := ih cs' t' hub
        injection hEq with hcs ht
        subst hcs; subst ht
        refine ⟨?_, ?_⟩
        · simp only [List.map_cons]
          rw [h1]
          simp [updCell, hs]
        · rw [List.filter_cons_of_neg (by simp [hs])]
          simpa using h2

/-- Parsing helper: `int(x or 0)` of a stored integer value is the value
itself (also when it is 0, via the `or 0` fallback). -/
theorem pyInt_pyOrZero_vint (v : Int) :
    pyInt (pyOrZero (some (.vint v))) = some v := by
  by_cases hv : v = 0
  · subst hv; simp [pyOrZero, pyFalsy, pyInt]
  · simp [pyOrZero, pyFalsy, pyInt, hv]

/-- C2: when `upsert_data` updates an existing row, every summable
integer column receives the existing value plus the incoming value
(missing/unparseable incoming contributes 0) and the stored `total` is
recomputed from scratch as the sum of the summable integer columns' new
values; and upserting `{a: v}` twice on an initially absent key (a schema
whose only column `a` is summable integer) yields one row with
`a = 2*v` and `total = 2*v`. -/
theorem upsert_update_merges_and_recomputes_total :
    (∀ (cols : List ColumnDef) (existing data cs : Cells) (t : Int),
      updateBranch cols existing data = some (cs, t) →
      cs = cols.map (fun col =>
        (sanitizeStr col.name, updCell col existing data)) ∧
      t = ((cols.filter (fun c => summableInt c)).map
            (fun c => updInt c existing data)).sum) ∧
    (∀ v : Int,
      upsertData [⟨"a", "integer", true⟩] 5 ⟨2025, 3, 1⟩
        [("a", some (.vint v))]
        ((upsertData [⟨"a", "integer", true⟩] 5 ⟨2025, 3, 1⟩
          [("a", some (.vint v))] []).2)
      = (.updated, [⟨5, ⟨2025, 3, 1⟩,
          [("a", some (.vint (2 * v)))], 2 * v⟩])) := by
  refine ⟨updateBranch_eq, fun v => ?_⟩
  have hsan : sanitizeStr "a" = "a" := by decide
  have h1 : (upsertData [⟨"a", "integer", true⟩] 5 ⟨2025, 3, 1⟩
      [("a", some (.vint v))] []).2
      = [⟨5, ⟨2025, 3, 1⟩, [("a", some (.vint v))], v⟩] := by
    simp [upsertData, insertBranch, dictGet, hsan, pyInt]
  rw [h1]
  have hfind : ([⟨5, ⟨2025, 3, 1⟩, [("a", some (.vint v))], v⟩] :
      List DataRow).find? (fun r => r.unit == 5 && r.tanggal == ⟨2025, 3, 1⟩)
      = some ⟨5, ⟨2025, 3, 1⟩, [("a", some (.vint v))], v⟩ := by
    simp [List.find?]
  have hmerge : mergedInt ⟨"a", "integer", true⟩
      [("a", some (.vint v))] [("a", some (.vint v))] = some (v + v) := by
    simp [mergedInt, dataGet, dataGetD0, dictGet, hsan, pyInt_pyOrZero_vint,
      show pyInt (.vint v) = some v from rfl]
  have hupd : updateBranch [⟨"a", "integer", true⟩]
      [("a", some (.vint v))] [("a", some (.vint v))]
      = some ([("a", some (.vint (v + v)))], v + v) := by
    simp [updateBranch, summableInt, hmerge, hsan]
  simp [upsertData, hfind, hupd, updateFirstMatch, two_mul]

/-- C2 witness: the update-branch characterization evaluated at a
one-column schema with existing value 1 and incoming value 2, and the
double-upsert law evaluated at `v = 10`. -/
theorem upsert_update_merges_witness :
    ([("a", some (Value.vint 3))] =
      ([⟨"a", "integer", true⟩] : List ColumnDef).map (fun col =>
        (sanitizeStr col.name,
          updCell col [("a", some (.vint 1))] [("a", some (.vint 2))])) ∧
      (3 : Int) = ((([⟨"a", "integer", true⟩] :
          List ColumnDef).filter (fun c => summableInt c)).map
            (fun c => updInt c [("a", some (.vint 1))]
              [("a", some (.vint 2))])).sum) ∧
    upsertData [⟨"a", "integer", true⟩] 5 ⟨2025, 3, 1⟩
        [("a", some (.vint 10))]
        ((upsertData [⟨"a", "integer", true⟩] 5 ⟨2025, 3, 1⟩
          [("a", some (.vint 10))] []).2)
      = (.updated, [⟨5, ⟨2025, 3, 1⟩,
          [("a", some (.vint 20))], 20⟩]) := by
  refine ⟨upsert_update_merges_and_recomputes_total.1
    [⟨"a", "integer", true⟩] [("a", some (.vint 1))]
    [("a", some (.vint 2))] [("a", some (Value.vint 3))] 3 (by decide), ?_⟩
  have := upsert_update_merges_and_recomputes_total.2 10
  simpa using this

/-- C3 counterexample: a non-summable text column `b` whose name is
absent from the incoming map does *not* keep its stored value after an
update: `upsert_data` overwrites it with `data.get('b') = None`.  Here
the existing row has `a = 3, b = "x"`, the incoming map is `{a: 1}`, and
the updated row stores `b = NULL` (previous value was `"x"`). -/
theorem upsert_nonsummable_kept_cex :
    upsertData [⟨"a", "integer", true⟩, ⟨"b", "text", false⟩] 5 ⟨2025, 3, 1⟩
      [("a", some (.vint 1))]
      [⟨5, ⟨2025, 3, 1⟩, [("a", some (.vint 3)), ("b", some (.vstr "x"))], 3⟩]
    = (.updated, [⟨5, ⟨2025, 3, 1⟩,
        [("a", some (.vint 4)), ("b", none)], 4⟩]) ∧
    some (Value.vstr "x") ≠ (none : Option Value) := by
  constructor
  · decide
  · decide

/-- C3 (amended): in the update branch of `upsert_data`, every column
that is not a summable integer column is always overwritten with the
incoming value `data.get(name)` — the incoming value when the name is
present, NULL when it is absent; columns are never left unchanged. -/
theorem upsert_nonsummable_overwritten (cols : List ColumnDef)
    (existing data cs : Cells) (t : Int)
    (h : updateBranch cols existing data = some (cs, t))
    (col : ColumnDef) (hmem : col ∈ cols)
    (hns : summableInt col = false) :
    (sanitizeStr col.name, dataGet data col.name) ∈ cs := by
  obtain ⟨hcs, -⟩ := updateBranch_eq cols existing data cs t h
  rw [hcs]
  refine List.mem_map.mpr ⟨col, hmem, ?_⟩
  simp [updCell, hns]

/-- C3 witness: the amended overwrite law at a concrete one-column
schema with the incoming value present. -/
theorem upsert_nonsummable_overwritten_witness :
    (sanitizeStr "b", dataGet [("b", some (Value.vstr "y"))] "b")
      ∈ [("b", some (Value.vstr "y"))] :=
  upsert_nonsummable_overwritten [⟨"b", "text", false⟩]
    [("b", some (.vstr "x"))] [("b", some (Value.vstr "y"))]
    [("b", some (Value.vstr "y"))] 0 (by decide)
    ⟨"b", "text", false⟩ (by decide) (by decide)

/-! ## Schema registry lifecycle (`TableService` create / register /
update / delete)

The registry (the `TableDefinition` rows) and the set of physical tables
are embedded as a `RegState`.  `nextId` models the autoincrement primary
key.  Column metadata rows are not needed by the registry claims and the
`ddlFails` flag models `db.execute(text(ddl))` raising (the DDL failure
path of claim C7); the index/foreign-key statements that follow are
wrapped in their own try/except in the source and cannot fail the
operation. -/

/-- A `TableDefinition` row (the fields the registry operations touch). -/
structure TableDefM where
  id : Nat
  name : String
  display_name : String
  description : Option String
  is_default : Bool
deriving DecidableEq, Repr

/-- Registry metadata plus the set of existing physical tables. -/
structure RegState where
  registry : List TableDefM
  physical : List String
  nextId : Nat
deriving DecidableEq, Repr

/-- Status of a registry operation result dict. -/
inductive OpResult where
  | success
  | errorRes
deriving DecidableEq, Repr

/-- `TableService.create_table`: sanitize the name, reject empty or
duplicate names, stage the metadata row (`is_default` iff the registry
was empty), then execute the CREATE TABLE DDL; if the DDL raises
(`ddlFails`), roll back the staged metadata and report an error,
otherwise commit both the metadata and the new physical table. -/
def createTable (s : RegState) (name display : String)
    (descr : Option String) (ddlFails : Bool) : OpResult × RegState :=
  let safe := sanitizeStr name
  if safe == "" then (.errorRes, s)
  else if s.registry.any (fun t => t.name == safe) then (.errorRes, s)
  else
    let isDef := s.registry.length == 0
    if ddlFails then (.errorRes, s)
    else (.success,
      { registry := s.registry ++ [⟨s.nextId, safe, display, descr, isDef⟩],
        physical := s.physical ++ [safe],
        nextId := s.nextId + 1 })

/-- `TableService.register_existing_table`: metadata only, no DDL; the
raw name is trusted (it came from the live catalog), duplicates are
rejected, `is_default` iff the registry was empty. -/
def registerExistingTable (s : RegState) (name display : String)
    (descr : Option String) : OpResult × RegState :=
  if s.registry.any (fun t => t.name == name) then (.errorRes, s)
  else (.success,
    { s with
      registry := s.registry ++
        [⟨s.nextId, name, display, descr, s.registry.length == 0⟩],
      nextId := s.nextId + 1 })

/-- Apply an edit to the first registry row with the given id (the ORM
`query.filter(id == table_id).first()` object). -/
def setFirstById (l : List TableDefM) (tid : Nat)
    (f : TableDefM → TableDefM) : List TableDefM :=
  match l with
  | [] => []
  | t :: rest =>
      if t.id == tid then f t :: rest else t :: setFirstById rest tid f

/-- The metadata edit of `update_table`: set the display name when the
argument is truthy and the description when it is provided. -/
def metaEdit (display descr : Option String) (x : TableDefM) : TableDefM :=
  let x1 := match display with
    | some d => if d == "" then x else { x with display_name := d }
    | none => x
  match descr with
  | some d => { x1 with description := some d }
  | none => x1

/-- `TableService.update_table`: edit display name (skipped when falsy)
and description (skipped when absent) on the row; when `is_default` is
passed truthy and the row is not already the default, clear the flag on
every row and set it on this row alone. -/
def updateTable (s : RegState) (tid : Nat) (display : Option String)
    (descr : Option String) (isDef : Option Bool) : OpResult × RegState :=
  match s.registry.find? (fun t => t.id == tid) with
  | none => (.errorRes, s)
  | some t =>
      let reg1 := setFirstById s.registry tid (metaEdit display descr)
      let reg2 :=
        if isDef.getD false && !t.is_default then
          setFirstById (reg1.map (fun x => { x with is_default := false }))
            tid (fun x => { x with is_default := true })
        else reg1
      (.success, { s with registry := reg2 })

/-- Remove the first registry row with the given id (`db.delete(table)`
on the `.first()` result). -/
def removeFirstById (l : List TableDefM) (tid : Nat) : List TableDefM :=
  match l with
  | [] => []
  | t :: rest => if t.id == tid then rest else t :: removeFirstById rest tid

/-- `TableService.delete_table`: drop the physical table
(`DROP TABLE IF EXISTS`) and delete the metadata row. -/
def deleteTable (s : RegState) (tid : Nat) : OpResult × RegState :=
  match s.registry.find? (fun t => t.id == tid) with
  | none => (.errorRes, s)
  | some t =>
      (.success,
        { s with
          registry := removeFirstById s.registry tid,
          physical :=
            s.physical.filter (fun n => !(n == sanitizeStr t.name)) })

/-- Number of registry rows flagged as default. -/
def dCount (l : List TableDefM) : Nat :=
  (l.filter (fun t => t.is_default)).length

/-- At most one schema is marked default. -/
def invAtMostOneDefault (s : RegState) : Prop :=
  dCount s.registry ≤ 1

/-! ## Claims C7, C9 — registry lifecycle properties -/

/-- Filtered default-count distributes over append. -/
theorem dCount_append (l1 l2 : List TableDefM) :
    dCount (l1 ++ l2) = dCount l1 + dCount l2 := by
  simp [dCount, List.filter_append]

/-- Filtered default-count of a cons. -/
theorem dCount_cons (t : TableDefM) (l : List TableDefM) :
    dCount (t :: l) = (if t.is_default then 1 else 0) + dCount l := by
  unfold dCount
  rw [List.filter_cons]
  split <;> simp <;> omega

/-- Editing one row raises the default-count by at most one. -/
theorem dCount_setFirst_le (l : List TableDefM) (tid : Nat)
    (f : TableDefM → TableDefM) :
    dCount (setFirstById l tid f) ≤ dCount l + 1 := by
  induction l with
  | nil => simp [setFirstById, dCount]
  | cons t rest ih =>
      unfold setFirstById
      by_cases h : (t.id == tid) = true
      · rw [if_pos h, dCount_cons, dCount_cons]
        by_cases h1 : (f t).is_default <;> by_cases h2 : t.is_default <;>
          simp [h1, h2] <;> omega
      · rw [if_neg h, dCount_cons, dCount_cons]
        omega

/-- An edit that does not touch the `is_default` flag preserves the
default-count. -/
theorem dCount_setFirst_preserve (l : List TableDefM) (tid : Nat)
    (f : TableDefM → TableDefM)
    (hf : ∀ x, (f x).is_default = x.is_default) :
    dCount (setFirstById l tid f) = dCount l := by
  induction l with
  | nil => rfl
  | cons t rest ih =>
      unfold setFirstById
      by_cases h : (t.id == tid) = true
      · rw [if_pos h, dCount_cons, dCount_cons, hf t]
      · rw [if_neg h, dCount_cons, dCount_cons, ih]

/-- After the mass `UPDATE ... SET is_default = false` no row is
default. -/
theorem dCount_map_false (l : List TableDefM) :
    dCount (l.map (fun x => { x with is_default := false })) = 0 := by
  induction l with
  | nil => rfl
  | cons t rest ih =>
      rw [List.map_cons, dCount_cons]
      simpa using ih

/-- Deleting a row never raises the default-count. -/
theorem dCount_removeFirst_le (l : List TableDefM) (tid : Nat) :
    dCount (removeFirstById l tid) ≤ dCount l := by
  induction l with
  | nil => simp [removeFirstById, dCount]
  | cons t rest ih =>
      unfold removeFirstById
      by_cases h : (t.id == tid) = true
      · rw [if_pos h, dCount_cons]
        omega
      · rw [if_neg h, dCount_cons, dCount_cons]
        omega

/-- The display-name/description edit leaves `is_default` untouched. -/
theorem metaEdit_is_default (display descr : Option String)
    (x : TableDefM) :
    (metaEdit display descr x).is_default = x.is_default := by
  unfold metaEdit
  cases display <;> cases descr <;> dsimp only <;> try rfl
  all_goals (first | rfl | (split <;> rfl))

/-- C9: starting from a registry with at most one default schema, each
of `create_table`, `register_existing_table`, `update_table` and
`delete_table` preserves the at-most-one-default invariant:
create/register flag the new schema as default only when the registry is
empty, `update_table` clears the flag on every schema before setting it
on one, and deletion only removes rows. -/
theorem registry_single_default_invariant (s : RegState)
    (hinv : invAtMostOneDefault s) :
    (∀ name display descr ddlFails,
      invAtMostOneDefault (createTable s name display descr ddlFails).2) ∧
    (∀ name display descr,
      invAtMostOneDefault (registerExistingTable s name display descr).2) ∧
    (∀ tid display descr isDef,
      invAtMostOneDefault (updateTable s tid display descr isDef).2) ∧
    (∀ tid, invAtMostOneDefault (deleteTable s tid).2) := by
  unfold invAtMostOneDefault at *
  refine ⟨?_, ?_, ?_, ?_⟩
  · intro name display descr ddlFails
    unfold createTable
    dsimp only
    split
    · exact hinv
    · split
      · exact hinv
      · split
        · exact hinv
        · dsimp only
          rw [dCount_append, dCount_cons]
          by_cases hlen : s.registry.length = 0
          · have hnil : s.registry = [] := List.length_eq_zero.mp hlen
            simp [hnil, dCount]
          · have hbeq : (s.registry.length == 0) = false := by
              simpa using hlen
            simp only [hbeq, if_false, dCount]
            simpa using hinv
  · intro name display descr
    unfold registerExistingTable
    split
    · exact hinv
    · dsimp only
      rw [dCount_append, dCount_cons]
      by_cases hlen : s.registry.length = 0
      · have hnil : s.registry = [] := List.length_eq_zero.mp hlen
        simp [hnil, dCount]
      · have hbeq : (s.registry.length == 0) = false := by simpa using hlen
        simp only [hbeq, if_false, dCount]
        simpa using hinv
  · intro tid display descr isDef
    unfold updateTable
    cases hf : s.registry.find? (fun t => t.id == tid) with
    | none => exact hinv
    | some t =>
        dsimp only
        split
        · calc dCount (setFirstById
              ((setFirstById s.registry tid (metaEdit display descr)).map
                (fun x => { x with is_default := false })) tid
              (fun x => { x with is_default := true }))
              ≤ dCount ((setFirstById s.registry tid
                  (metaEdit display descr)).map
                  (fun x => { x with is_default := false })) + 1 :=
                dCount_setFirst_le _ _ _
            _ = 1 := by rw [dCount_map_false]
        · rw [dCount_setFirst_preserve _ _ _
            (metaEdit_is_default display descr)]
          exact hinv
  · intro tid
    unfold deleteTable
    cases hf : s.registry.find? (fun t => t.id == tid) with
    | none => exact hinv
    | some t =>
        exact le_trans (dCount_removeFirst_le _ _) hinv

/-- C9 witness: the invariant after switching the default to schema 2 in
a concrete two-schema registry. -/
theorem registry_single_default_invariant_witness :
    invAtMostOneDefault (updateTable
      ⟨[⟨1, "a", "A", none, true⟩, ⟨2, "b", "B", none, false⟩],
        ["a", "b"], 3⟩ 2 none none (some true)).2 :=
  (registry_single_default_invariant
    ⟨[⟨1, "a", "A", none, true⟩, ⟨2, "b", "B", none, false⟩],
      ["a", "b"], 3⟩ (by unfold invAtMostOneDefault; decide)).2.2.1
    2 none none (some true)

/-- C7: when the CREATE TABLE DDL fails, `create_table` (reaching the
DDL with a valid, fresh name) returns an error result, the staged
metadata insert is rolled back (the state is exactly the initial state),
the registry afterwards holds no entry under the new name and the set of
physical tables is unchanged — no registered-but-no-table divergence. -/
theorem create_table_ddl_failure_rolls_back (s : RegState)
    (name display : String) (descr : Option String)
    (hsafe : ¬ sanitizeStr name = "")
    (hdup : ∀ t ∈ s.registry, ¬ t.name = sanitizeStr name) :
    createTable s name display descr true = (.errorRes, s) ∧
    (∀ t ∈ (createTable s name display descr true).2.registry,
      ¬ t.name = sanitizeStr name) ∧
    (createTable s name display descr true).2.physical = s.physical := by
  have hb1 : (sanitizeStr name == "") = false := by simpa using hsafe
  have hany : s.registry.any (fun t => t.name == sanitizeStr name)
      = false := by
    rw [List.any_eq_false]
    intro t ht
    simpa using hdup t ht
  have h1 : createTable s name display descr true = (.errorRes, s) := by
    unfold createTable
    dsimp only
    rw [if_neg (by simp [hb1]), if_neg (by simp [hany]), if_pos rfl]
  exact ⟨h1, by rw [h1]; exact hdup, by rw [h1]⟩

/-- C7 witness: a failing CREATE TABLE for the fresh name "My Table" on
a one-schema registry leaves the state untouched. -/
theorem create_table_ddl_failure_rolls_back_witness :
    createTable ⟨[⟨1, "a", "A", none, true⟩], ["a"], 2⟩ "My Table" "T"
      none true = (.errorRes, ⟨[⟨1, "a", "A", none, true⟩], ["a"], 2⟩) ∧
    (∀ t ∈ (createTable ⟨[⟨1, "a", "A", none, true⟩], ["a"], 2⟩
        "My Table" "T" none true).2.registry,
      ¬ t.name = sanitizeStr "My Table") ∧
    (createTable ⟨[⟨1, "a", "A", none, true⟩], ["a"], 2⟩ "My Table" "T"
      none true).2.physical = ["a"] :=
  create_table_ddl_failure_rolls_back
    ⟨[⟨1, "a", "A", none, true⟩], ["a"], 2⟩ "My Table" "T" none
    (by decide) (by decide)

/-! ## Summary materializer (`GenericSummaryService`)

A raw-table row carries the sub-unit id, a nullable date and the metric
column values (metric columns are integer columns with `DEFAULT 0`).
Both the Python `f"{y}-{m:02d}"` month string and the SQL
`DATE_FORMAT(tanggal, '%Y-%m')` represent the pair (year, month); on
MySQL's DATE domain (four-digit years, two-digit months) the two formats
agree and are in bijection with the pair, so the model uses the pair
`MonthKey` directly for the summary table's `month` column. -/

/-- Year/month pair standing for the `month` column's "YYYY-MM" string. -/
abbrev MonthKey := Nat × Nat

/-- A raw-table row as read by the summary service. -/
structure RawRow where
  unit : Int
  tanggal : Option Date
  metrics : List (String × Int)
deriving DecidableEq, Repr

/-- Value of a metric column in a raw row (`DEFAULT 0`). -/
def metricVal (r : RawRow) (c : String) : Int :=
  match r.metrics.find? (fun e => e.1 == c) with
  | some e => e.2
  | none => 0

/-- A summary-table row: `month`, `year`, `unit_kerja_id` and one summed
value per metric column. -/
structure SummaryCell where
  month : MonthKey
  year : Nat
  unit : Int
  metrics : List (String × Int)
deriving DecidableEq, Repr

/-- The raw-row predicate of the incremental recompute:
`unit_kerja_id = :uid AND YEAR(tanggal) = :y AND MONTH(tanggal) = :m`
(`YEAR(NULL)` is NULL and never equals `y`). -/
def rowMatches (uid : Int) (y m : Nat) (r : RawRow) : Bool :=
  r.unit == uid &&
  (match r.tanggal with
   | some d => d.year == y && d.month == m
   | none => false)

/-- The summary-cell key predicate used by the DELETE / existence check /
UPDATE statements of `update_summary_row`:
`unit_kerja_id = :uid AND year = :y AND month = :m_str`. -/
def cellKeyMatch (uid : Int) (y m : Nat) (c : SummaryCell) : Bool :=
  c.unit == uid && c.year == y && c.month == (y, m)

/-- The freshly computed per-metric sums
`COALESCE(SUM(t.col), 0)` over the matching raw rows. -/
def monthSums (metricCols : List String) (raw : List RawRow) (uid : Int)
    (y m : Nat) : List (String × Int) :=
  metricCols.map (fun col =>
    (col, ((raw.filter (rowMatches uid y m)).map
      (fun r => metricVal r col)).sum))

/-- `GenericSummaryService.update_summary_row`: recompute the sums and
the row count for the (sub-unit, year, month) cell; with no matching raw
rows delete the summary cell, otherwise update it in place when it
exists and insert it when it does not.  With no metric columns the
method returns without touching the summary. -/
def updateSummaryRow (metricCols : List String) (raw : List RawRow)
    (summary : List SummaryCell) (uid : Int) (d : Date) :
    List SummaryCell :=
  if metricCols.isEmpty then summary
  else
    let y := d.year
    let m := d.month
    let matching := raw.filter (rowMatches uid y m)
    if matching.length == 0 then
      summary.filter (fun c => !(cellKeyMatch uid y m c))
    else
      let sums := monthSums metricCols raw uid y m
      if summary.any (cellKeyMatch uid y m) then
        summary.map (fun c =>
          if cellKeyMatch uid y m c then { c with metrics := sums } else c)
      else
        summary ++ [⟨(y, m), y, uid, sums⟩]

/-! ## Claim C4 — incremental cell recompute -/

/-- Filtering commutes with a map that never changes the key predicate. -/
theorem filter_map_keyPres {p : SummaryCell → Bool}
    (g : SummaryCell → SummaryCell) (hg : ∀ c, p (g c) = p c)
    (l : List SummaryCell) :
    (l.map g).filter p = (l.filter p).map g := by
  induction l with
  | nil => rfl
  | cons c rest ih =>
      rw [List.map_cons, List.filter_cons, List.filter_cons, hg c]
      split
      · rw [List.map_cons, ih]
      · exact ih

/-- C4: for a schema with metric columns and a summary table whose
(month, year, sub-unit) key holds at most one cell (its primary key),
`update_summary_row` establishes: with zero matching raw rows the
summary cell for the key is deleted (no zero-valued orphan remains);
otherwise exactly one cell for the key exists afterwards — updated in
place if present, freshly inserted if not — and its metric columns are
the sums of the metrics over the matching raw rows. -/
theorem update_summary_row_cell_correct (metricCols : List String)
    (raw : List RawRow) (summary : List SummaryCell) (uid : Int) (d : Date)
    (hmc : metricCols ≠ [])
    (hpk : (summary.filter (cellKeyMatch uid d.year d.month)).length ≤ 1) :
    ((raw.filter (rowMatches uid d.year d.month)) = [] →
      (updateSummaryRow metricCols raw summary uid d).filter
        (cellKeyMatch uid d.year d.month) = []) ∧
    ((raw.filter (rowMatches uid d.year d.month)) ≠ [] →
      ((updateSummaryRow metricCols raw summary uid d).filter
        (cellKeyMatch uid d.year d.month)).length = 1 ∧
      ∀ cell ∈ (updateSummaryRow metricCols raw summary uid d).filter
          (cellKeyMatch uid d.year d.month),
        cell.metrics = monthSums metricCols raw uid d.year d.month) := by
  have hempty : metricCols.isEmpty = false := by
    cases metricCols with
    | nil => exact absurd rfl hmc
    | cons a l => rfl
  by_cases hm : raw.filter (rowMatches uid d.year d.month) = []
  · have hres : updateSummaryRow metricCols raw summary uid d
        = summary.filter (fun c => !(cellKeyMatch uid d.year d.month c)) := by
      unfold updateSummaryRow
      rw [hempty]
      rw [if_neg (by simp)]
      dsimp only
      rw [if_pos (by simp [hm])]
    refine ⟨fun _ => ?_, fun hne => absurd hm hne⟩
    rw [hres, List.filter_eq_nil_iff]
    intro c hc
    have h2 := (List.mem_filter.mp hc).2
    simp only [Bool.not_eq_true'] at h2
    simp [h2]
  · refine ⟨fun h => absurd h hm, fun _ => ?_⟩
    by_cases hex : summary.any (cellKeyMatch uid d.year d.month) = true
    · have hres : updateSummaryRow metricCols raw summary uid d
          = summary.map (fun c =>
              if cellKeyMatch uid d.year d.month c then
                { c with metrics :=
                    monthSums metricCols raw uid d.year d.month }
              else c) := by
        unfold updateSummaryRow
        rw [hempty]
        rw [if_neg (by simp)]
        dsimp only
        rw [if_neg (by simpa using hm), if_pos hex]
      have hg : ∀ c, cellKeyMatch uid d.year d.month
          (if cellKeyMatch uid d.year d.month c then
            { c with metrics := monthSums metricCols raw uid d.year d.month }
          else c) = cellKeyMatch uid d.year d.month c := by
        intro c
        by_cases hc : cellKeyMatch uid d.year d.month c = true
        · rw [if_pos hc, hc]
          simp only [cellKeyMatch] at hc ⊢
          exact hc
        · rw [if_neg hc]
      rw [hres, filter_map_keyPres _ hg]
      constructor
      · rw [List.length_map]
        have h1 : 1 ≤ (summary.filter
            (cellKeyMatch uid d.year d.month)).length := by
          rw [List.any_eq_true] at hex
          obtain ⟨x, hx, hpx⟩ := hex
          have hxm : x ∈ summary.filter (cellKeyMatch uid d.year d.month) :=
            List.mem_filter.mpr ⟨hx, hpx⟩
          exact List.length_pos.mpr (fun hnil => by simp [hnil] at hxm)
        omega
      · intro cell hcell
        rw [List.mem_map] at hcell
        obtain ⟨c, hc, rfl⟩ := hcell
        have hpc := (List.mem_filter.mp hc).2
        rw [if_pos hpc]
    · have hres : updateSummaryRow metricCols raw summary uid d
          = summary ++ [⟨(d.year, d.month), d.year, uid,
              monthSums metricCols raw uid d.year d.month⟩] := by
        unfold updateSummaryRow
        rw [hempty]
        rw [if_neg (by simp)]
        dsimp only
        rw [if_neg (by simpa using hm), if_neg hex]
      have hnil : summary.filter (cellKeyMatch uid d.year d.month) = [] := by
        rw [List.filter_eq_nil_iff]
        intro c hc
        rw [List.any_eq_true] at hex
        push_neg at hex
        have := hex c hc
        simpa using this
      have hnew : cellKeyMatch uid d.year d.month
          ⟨(d.year, d.month), d.year, uid,
            monthSums metricCols raw uid d.year d.month⟩ = true := by
        simp [cellKeyMatch]
      rw [hres, List.filter_append, hnil, List.filter_cons]
      rw [hnew]
      simp

/-- C4 witness: with no raw rows left for (unit 1, 2025-01), the
recompute deletes the summary cell for that key (the deletion leg), on a
one-cell summary table. -/
theorem update_summary_row_cell_correct_witness :
    (([] : List RawRow).filter (rowMatches 1 2025 1) = [] →
      (updateSummaryRow ["count"] []
        [⟨(2025, 1), 2025, 1, [("count", 12)]⟩] 1 ⟨2025, 1, 20⟩).filter
        (cellKeyMatch 1 2025 1) = []) ∧
    (([] : List RawRow).filter (rowMatches 1 2025 1) ≠ [] →
      ((updateSummaryRow ["count"] []
        [⟨(2025, 1), 2025, 1, [("count", 12)]⟩] 1 ⟨2025, 1, 20⟩).filter
        (cellKeyMatch 1 2025 1)).length = 1 ∧
      ∀ cell ∈ (updateSummaryRow ["count"] []
          [⟨(2025, 1), 2025, 1, [("count", 12)]⟩] 1 ⟨2025, 1, 20⟩).filter
          (cellKeyMatch 1 2025 1),
        cell.metrics = monthSums ["count"] [] 1 2025 1) :=
  update_summary_row_cell_correct ["count"] []
    [⟨(2025, 1), 2025, 1, [("count", 12)]⟩] 1 ⟨2025, 1, 20⟩
    (by decide) (by decide)

/-! ## Claim C5 — full rebuild idempotence -/

/-- The metric columns of `create_summary_table` /
`update_summary_row`: every integer column except the
identity/reference columns. -/
def metricColsOf (columns : List (String × String)) : List String :=
  (columns.filter (fun c => c.2 == "integer" &&
    !(c.1 == "id" || c.1 == "unit_kerja_id" || c.1 == "instansi_id"))).map
    (·.1)

/-- The GROUP BY keys of the rebuild's INSERT … SELECT: the distinct
(month, sub-unit) pairs over raw rows with a non-NULL date. -/
def groupKeys (raw : List RawRow) : List (MonthKey × Int) :=
  (raw.filterMap (fun r =>
    r.tanggal.map (fun d => ((d.year, d.month), r.unit)))).dedup

/-- Whether a raw row belongs to a rebuild group. -/
def keyMatches (k : MonthKey × Int) (r : RawRow) : Bool :=
  match r.tanggal with
  | some d => ((d.year, d.month) == k.1) && (r.unit == k.2)
  | none => false

/-- The rebuild's INSERT … SELECT … GROUP BY: one summary cell per
distinct (month, sub-unit) group, each metric column summed over the
group's rows. -/
def aggregateSummary (metricCols : List String) (raw : List RawRow) :
    List SummaryCell :=
  (groupKeys raw).map (fun k =>
    ⟨k.1, k.1.1, k.2,
      metricCols.map (fun col =>
        (col, ((raw.filter (keyMatches k)).map
          (fun r => metricVal r col)).sum))⟩)

/-- `GenericSummaryService.create_summary_table`: validate that the
source table has `tanggal` and `unit_kerja_id` columns and at least one
metric column, then drop any previous summary table (`_prev` is
discarded) and rebuild it from the raw rows alone. -/
def createSummaryTable (columns : List (String × String))
    (raw : List RawRow) (_prev : Option (List SummaryCell)) :
    Except String (List SummaryCell) :=
  if !(columns.any (fun c => c.1 == "tanggal")) then
    .error "Table must have tanggal column"
  else if !(columns.any (fun c => c.1 == "unit_kerja_id")) then
    .error "Table must have unit_kerja_id column"
  else if (metricColsOf columns).isEmpty then
    .error "No metric columns (numbers) found to summarize"
  else .ok (aggregateSummary (metricColsOf columns) raw)

/-- C5: on a fixed raw-table snapshot, for a schema whose physical table
has `tanggal`, `unit_kerja_id` and at least one metric column, running
the full rebuild twice succeeds both times with the identical cell list
(hence the same row count and per-cell sums): the rebuild drops the
previous summary and depends only on the raw rows.  The produced table
has one row per (month, sub-unit), its `year` column is the month's
year, and each metric column is the sum of the metric over the group's
raw rows. -/
theorem summary_rebuild_idempotent (columns : List (String × String))
    (raw : List RawRow)
    (htgl : columns.any (fun c => c.1 == "tanggal") = true)
    (huk : columns.any (fun c => c.1 == "unit_kerja_id") = true)
    (hmc : metricColsOf columns ≠ []) :
    ∃ cells,
      createSummaryTable columns raw none = .ok cells ∧
      createSummaryTable columns raw (some cells) = .ok cells ∧
      (cells.map (fun c => (c.month, c.unit))).Nodup ∧
      ∀ cell ∈ cells,
        cell.year = cell.month.1 ∧
        cell.metrics = (metricColsOf columns).map (fun col =>
          (col, ((raw.filter (keyMatches (cell.month, cell.unit))).map
            (fun r => metricVal r col)).sum)) := by
  have hempty : (metricColsOf columns).isEmpty = false := by
    cases hx : metricColsOf columns with
    | nil => exact absurd hx hmc
    | cons a l => rfl
  have hok : ∀ p, createSummaryTable columns raw p
      = .ok (aggregateSummary (metricColsOf columns) raw) := by
    intro p
    unfold createSummaryTable
    rw [htgl, huk]
    rw [if_neg (by simp), if_neg (by simp), if_neg (by simp [hempty])]
  refine ⟨aggregateSummary (metricColsOf columns) raw,
    hok none, hok _, ?_, ?_⟩
  · have hmm : (aggregateSummary (metricColsOf columns) raw).map
        (fun c => (c.month, c.unit)) = groupKeys raw := by
      unfold aggregateSummary
      rw [List.map_map]
      have hid : ((fun c : SummaryCell => (c.month, c.unit)) ∘
          (fun k : MonthKey × Int =>
            (⟨k.1, k.1.1, k.2,
              (metricColsOf columns).map (fun col =>
                (col, ((raw.filter (keyMatches k)).map
                  (fun r => metricVal r col)).sum))⟩ : SummaryCell)))
          = id := by
        funext k
        rfl
      rw [hid, List.map_id]
    rw [hmm]
    exact List.nodup_dedup _
  · intro cell hcell
    unfold aggregateSummary at hcell
    rw [List.mem_map] at hcell
    obtain ⟨k, hk, rfl⟩ := hcell
    exact ⟨rfl, rfl⟩

/-- C5 witness: the double rebuild on the spec's end-to-end raw snapshot
(unit 1, two January-2025 rows with `count` 5 and 7). -/
theorem summary_rebuild_idempotent_witness :
    ∃ cells,
      createSummaryTable
        [("id", "integer"), ("unit_kerja_id", "integer"),
          ("tanggal", "date"), ("count", "integer")]
        [⟨1, some ⟨2025, 1, 15⟩, [("count", 5)]⟩,
          ⟨1, some ⟨2025, 1, 20⟩, [("count", 7)]⟩] none = .ok cells ∧
      createSummaryTable
        [("id", "integer"), ("unit_kerja_id", "integer"),
          ("tanggal", "date"), ("count", "integer")]
        [⟨1, some ⟨2025, 1, 15⟩, [("count", 5)]⟩,
          ⟨1, some ⟨2025, 1, 20⟩, [("count", 7)]⟩] (some cells)
        = .ok cells ∧
      (cells.map (fun c => (c.month, c.unit))).Nodup ∧
      ∀ cell ∈ cells,
        cell.year = cell.month.1 ∧
        cell.metrics = (metricColsOf
          [("id", "integer"), ("unit_kerja_id", "integer"),
            ("tanggal", "date"), ("count", "integer")]).map (fun col =>
          (col, (([⟨1, some ⟨2025, 1, 15⟩, [("count", 5)]⟩,
              ⟨1, some ⟨2025, 1, 20⟩, [("count", 7)]⟩].filter
              (keyMatches (cell.month, cell.unit))).map
            (fun r => metricVal r col)).sum)) :=
  summary_rebuild_idempotent
    [("id", "integer"), ("unit_kerja_id", "integer"),
      ("tanggal", "date"), ("count", "integer")]
    [⟨1, some ⟨2025, 1, 15⟩, [("count", 5)]⟩,
      ⟨1, some ⟨2025, 1, 20⟩, [("count", 7)]⟩]
    (by decide) (by decide) (by decide)
